import Mathlib

/-!
Shallow embedding of two source files of ozz-animation:
  - src/animation/offline/fbx/fbx_skeleton.cc (skeleton extraction from an FBX scene)
  - src/animation/runtime/float_track_sampling_job.cc (scalar track sampling)

FBX SDK types (FbxNode, FbxCluster, FbxPose, FbxAMatrix, ...) are external
collaborators; they are modelled here as parameters: matrices are an abstract
type `M` with the operations the source uses (multiplication, inversion, the
default-constructed identity), and the target transform representation is an
abstract type `T`.  Node identity (C++ pointer comparison) is modelled by a
numeric `id` field.
-/

namespace OzzFbx

/-- FbxNodeAttribute::EType : the attribute category tag of a scene node. -/
inductive EType : Type where
  | eUnknown
  | eNull
  | eMarker
  | eSkeleton
  | eMesh
  | eNurbs
  | ePatch
  | eCamera
  | eCameraStereo
  | eCameraSwitcher
  | eLight
  | eOpticalReference
  | eOpticalMarker
  | eNurbsCurve
  | eTrimNurbsSurface
  | eBoundary
  | eNurbsSurface
  | eShape
  | eLODGroup
  | eSubDiv
  | eCachedEffect
  | eLine
deriving DecidableEq, Repr

/-- OzzImporter::NodeType : the caller's selection configuration flags. -/
structure NodeType where
  skeleton : Bool
  marker : Bool
  camera : Bool
  geometry : Bool
  light : Bool
  any : Bool
deriving DecidableEq, Repr

/-- fbx_skeleton.cc lines 43-92, IsTypeSelected: decides whether a node whose
attribute has the given category is selected by the configuration. -/
def IsTypeSelected (types : NodeType) (node_type : EType) : Bool :=
  if types.any then true
  else
    match node_type with
    | .eSkeleton => types.skeleton
    | .eMarker => types.marker
    | .eMesh | .eNurbs | .ePatch | .eNurbsCurve | .eTrimNurbsSurface | .eBoundary
    | .eNurbsSurface | .eShape | .eSubDiv | .eLine => types.geometry
    | .eCameraStereo | .eCamera => types.camera
    | .eLight => types.light
    | .eUnknown | .eNull | .eCameraSwitcher | .eOpticalReference | .eOpticalMarker
    | .eCachedEffect | .eLODGroup => false

/-- FbxCluster: `link` models GetLink() (the influencing node's identity) and
`transformLink` models the matrix written by GetTransformLinkMatrix. -/
structure FbxCluster (M : Type) where
  link : Nat
  transformLink : M
deriving DecidableEq, Repr

/-- FbxPose: a pose snapshot; IsBindPose() is the `isBindPose` flag and the
entries pair node identities with their stored world matrices. -/
structure FbxPose (M : Type) where
  isBindPose : Bool
  entries : List (Nat × M)
deriving DecidableEq, Repr

/-- FbxPose::Find followed by FbxPose::GetMatrix, collapsed into one lookup:
the matrix of the first entry for the given node, none when Find returns a
negative index. -/
def FbxPose.find {M : Type} (p : FbxPose M) (id : Nat) : Option M :=
  (p.entries.find? (fun e => e.1 == id)).map (fun e => e.2)

/-- FbxNode: a scene node.  `attr` models GetNodeAttribute() (none for a
null pointer) collapsed with GetAttributeType(); `world` models
EvaluateGlobalTransform(); `mesh` models GetMesh() (none when the node bears
no mesh), holding one inner list per skin deformer
(GetDeformer(i, FbxDeformer::eSkin)), each listing the deformer's cluster
pointers (GetCluster(j)), which may be null (none). -/
inductive FbxNode (M : Type) : Type where
  | mk (id : Nat) (name : String) (attr : Option EType) (world : M)
      (mesh : Option (List (List (Option (FbxCluster M)))))
      (children : List (FbxNode M))

def FbxNode.id {M : Type} : FbxNode M → Nat
  | .mk i _ _ _ _ _ => i

def FbxNode.name {M : Type} : FbxNode M → String
  | .mk _ n _ _ _ _ => n

def FbxNode.attr {M : Type} : FbxNode M → Option EType
  | .mk _ _ a _ _ _ => a

def FbxNode.world {M : Type} : FbxNode M → M
  | .mk _ _ _ w _ _ => w

def FbxNode.mesh {M : Type} : FbxNode M → Option (List (List (Option (FbxCluster M))))
  | .mk _ _ _ _ m _ => m

def FbxNode.children {M : Type} : FbxNode M → List (FbxNode M)
  | .mk _ _ _ _ _ c => c

/-- FbxScene (as reached through FbxSceneLoader::scene()): the root node
(GetRootNode()) and the pose list (GetPoseCount()/GetPose(i), a pose pointer
may be null). -/
structure FbxScene (M : Type) where
  root : FbxNode M
  poses : List (Option (FbxPose M))

/-- The external collaborators RecurseNode relies on: the FbxAMatrix algebra
(operator*, Inverse(), the default-constructed FbxAMatrix(), which is the
identity) and FbxSystemConverter::ConvertTransform reached through
FbxSceneLoader::converter(), returning none on conversion failure.
`defaultTransform` is the value a freshly resized RawSkeleton::Joint holds
before ConvertTransform writes it. -/
structure FbxEnv (M T : Type) where
  mul : M → M → M
  inv : M → M
  identity : M
  convertTransform : M → Option T
  defaultTransform : T

/-- RawSkeleton::Joint : name, transform, ordered children. -/
inductive Joint (T : Type) : Type where
  | mk (name : String) (transform : T) (children : List (Joint T))

def Joint.name {T : Type} : Joint T → String
  | .mk n _ _ => n

def Joint.transform {T : Type} : Joint T → T
  | .mk _ t _ => t

def Joint.children {T : Type} : Joint T → List (Joint T)
  | .mk _ _ c => c

/-- RawSkeleton : the output forest of root joints. -/
structure RawSkeleton (T : Type) where
  roots : List (Joint T)

/-- fbx_skeleton.cc line 41.  kError additionally records the joint name named
by the diagnostic emitted at the failure site (lines 152-153). -/
inductive RecurseReturn : Type where
  | kError (joint_name : String)
  | kSkeletonFound
  | kNoSkeleton
deriving DecidableEq, Repr

/-- The `node_attribute && IsTypeSelected(...)` test of lines 104-106: a node
is promoted to a joint iff it has an attribute whose category is selected. -/
def NodeAccepted {M : Type} (types : NodeType) (node : FbxNode M) : Bool :=
  match node.attr with
  | some a => IsTypeSelected types a
  | none => false

/-- The pose-list scan of lines 134-147: the matrix of the first non-null,
bind-pose-flagged pose that contains the node, none when there is none. -/
def findBindPoseMatrix {M : Type} : List (Option (FbxPose M)) → Nat → Option M
  | [], _ => none
  | none :: rest, id => findBindPoseMatrix rest id
  | some p :: rest, id =>
    if p.isBindPose then
      match p.find id with
      | some m => some m
      | none => findBindPoseMatrix rest id
    else findBindPoseMatrix rest id

/-- The bind-pose extraction of lines 121-147: `node_global` starts as the
node's evaluated world transform, is overwritten by the first cluster whose
link is the node (break on first match), and otherwise by the first matching
bind-pose snapshot entry.  (The FbxMatrix-to-FbxAMatrix cast of line 142 is
the identity here.) -/
def ResolveBindPose {M : Type} (scene : FbxScene M) (clusters : List (FbxCluster M))
    (node : FbxNode M) : M :=
  match clusters.find? (fun c => c.link == node.id) with
  | some cluster => cluster.transformLink
  | none =>
    match findBindPoseMatrix scene.poses node.id with
    | some m => m
    | none => node.world

mutual
/-- fbx_skeleton.cc lines 94-174, RecurseNode.  The C++ mutates the sibling
list `_parent ? &_parent->children : &_skeleton->roots` in place; here that
list is passed in and the updated list returned next to the tri-state.  On
acceptance the joint is appended (with the node's name) before conversion is
attempted, so a conversion failure leaves it in the list with the default
transform and no children, exactly as the in-place C++ does. -/
def RecurseNode {M T : Type} (env : FbxEnv M T) (scene : FbxScene M)
    (clusters : List (FbxCluster M)) (types : NodeType) :
    FbxNode M → M → List (Joint T) → RecurseReturn × List (Joint T)
  | node@(.mk _ _ _ _ _ children), parent_global_inv, siblings =>
    if NodeAccepted types node then
      let node_global := ResolveBindPose scene clusters node
      let node_local := env.mul parent_global_inv node_global
      match env.convertTransform node_local with
      | none => (.kError node.name, siblings ++ [.mk node.name env.defaultTransform []])
      | some transform =>
        let r := RecurseChildren env scene clusters types children (env.inv node_global) [] true
        (r.1, siblings ++ [.mk node.name transform r.2])
    else
      RecurseChildren env scene clusters types children parent_global_inv siblings false

/-- The child loop of RecurseNode (lines 163-171): recurse into each child in
order, return immediately on kError, and OR the kSkeletonFound results into
`skeleton_found` (line 173 turns the flag into the final tri-state). -/
def RecurseChildren {M T : Type} (env : FbxEnv M T) (scene : FbxScene M)
    (clusters : List (FbxCluster M)) (types : NodeType) :
    List (FbxNode M) → M → List (Joint T) → Bool → RecurseReturn × List (Joint T)
  | [], _, siblings, skeleton_found =>
    (if skeleton_found then .kSkeletonFound else .kNoSkeleton, siblings)
  | child :: rest, parent_global_inv, siblings, skeleton_found =>
    match RecurseNode env scene clusters types child parent_global_inv siblings with
    | (.kError n, siblings') => (.kError n, siblings')
    | (.kSkeletonFound, siblings') =>
      RecurseChildren env scene clusters types rest parent_global_inv siblings' true
    | (.kNoSkeleton, siblings') =>
      RecurseChildren env scene clusters types rest parent_global_inv siblings' skeleton_found
end

mutual
/-- fbx_skeleton.cc lines 176-196, CollectClusters: append every non-null
cluster of every skin deformer of the node's mesh (if any), then recurse into
every child, threading the accumulating vector. -/
def CollectClusters {M : Type} : FbxNode M → List (FbxCluster M) → List (FbxCluster M)
  | .mk _ _ _ _ mesh children, clusters =>
    let clusters1 :=
      match mesh with
      | none => clusters
      | some skins =>
        skins.foldl (fun acc skin =>
          skin.foldl (fun acc c =>
            match c with
            | some cluster => acc ++ [cluster]
            | none => acc) acc) clusters
    CollectClustersList children clusters1

/-- The child loop of CollectClusters (lines 192-195). -/
def CollectClustersList {M : Type} : List (FbxNode M) → List (FbxCluster M) → List (FbxCluster M)
  | [], clusters => clusters
  | child :: rest, clusters => CollectClustersList rest (CollectClusters child clusters)
end

/-- Which of the two distinct diagnostics (lines 208, 211) ExtractSkeleton
emitted, or success. -/
inductive ExtractStatus : Type where
  | success
  | nothingFound
  | conversionFailure (joint_name : String)
deriving DecidableEq, Repr

/-- fbx_skeleton.cc lines 199-215, ExtractSkeleton: collect all clusters from
the root, then walk the scene from the root with a NULL parent (siblings are
the skeleton's roots) and the default FbxAMatrix() (identity) as
parent-global-inverse.  The result is the C++ bool, the final state of the
caller-provided skeleton (mutated in place by the C++), and which diagnostic
path was taken. -/
def ExtractSkeleton {M T : Type} (env : FbxEnv M T) (scene : FbxScene M)
    (types : NodeType) (skeleton : RawSkeleton T) : Bool × RawSkeleton T × ExtractStatus :=
  let clusters := CollectClusters scene.root []
  match RecurseNode env scene clusters types scene.root env.identity skeleton.roots with
  | (.kNoSkeleton, roots) => (false, ⟨roots⟩, .nothingFound)
  | (.kError n, roots) => (false, ⟨roots⟩, .conversionFailure n)
  | (.kSkeletonFound, roots) => (true, ⟨roots⟩, .success)

/-! Reference (specification-side) definitions, used to state properties of
the extraction functions above. -/

mutual
/-- Whether some node of the subtree passes the `node_attribute &&
IsTypeSelected` acceptance test. -/
def anyAccepted {M : Type} (types : NodeType) : FbxNode M → Bool
  | node@(.mk _ _ _ _ _ children) =>
    NodeAccepted types node || anyAcceptedList types children

/-- `anyAccepted` over a list of sibling subtrees. -/
def anyAcceptedList {M : Type} (types : NodeType) : List (FbxNode M) → Bool
  | [] => false
  | c :: rest => anyAccepted types c || anyAcceptedList types rest
end

mutual
/-- Whether some node of the subtree carries an attribute at all. -/
def anyAttributed {M : Type} : FbxNode M → Bool
  | .mk _ _ a _ _ children => a.isSome || anyAttributedList children

/-- `anyAttributed` over a list of sibling subtrees. -/
def anyAttributedList {M : Type} : List (FbxNode M) → Bool
  | [] => false
  | c :: rest => anyAttributed c || anyAttributedList rest
end

mutual
/-- Depth-first pre-order listing of every node of a subtree. -/
def preorder {M : Type} : FbxNode M → List (FbxNode M)
  | node@(.mk _ _ _ _ _ children) => node :: preorderList children

/-- `preorder` over a list of sibling subtrees, in sibling order. -/
def preorderList {M : Type} : List (FbxNode M) → List (FbxNode M)
  | [] => []
  | c :: rest => preorder c ++ preorderList rest
end

/-- The non-null binding clusters carried by one node's mesh (if any), in
deformer-major order — the per-node contribution of CollectClusters. -/
def nodeClusters {M : Type} (node : FbxNode M) : List (FbxCluster M) :=
  match node.mesh with
  | none => []
  | some skins => skins.flatMap (fun skin => skin.filterMap id)

mutual
/-- Pre-order names of the attributed nodes of a subtree. -/
def attributedNames {M : Type} : FbxNode M → List String
  | .mk _ n a _ _ children =>
    (if a.isSome then [n] else []) ++ attributedNamesList children

/-- `attributedNames` over a list of sibling subtrees. -/
def attributedNamesList {M : Type} : List (FbxNode M) → List String
  | [] => []
  | c :: rest => attributedNames c ++ attributedNamesList rest
end

/-- The names-and-children shape of a joint forest, forgetting transforms. -/
inductive NameTree : Type where
  | mk (name : String) (children : List NameTree)

mutual
/-- The shape (names and child structure) of a joint. -/
def Joint.shape {T : Type} : Joint T → NameTree
  | .mk n _ cs => .mk n (Joint.shapeList cs)

/-- `Joint.shape` over a list of joints. -/
def Joint.shapeList {T : Type} : List (Joint T) → List NameTree
  | [] => []
  | j :: rest => Joint.shape j :: Joint.shapeList rest
end

mutual
/-- Pre-order list of the names of a joint subtree. -/
def jointNames {T : Type} : Joint T → List String
  | .mk n _ cs => n :: jointNamesList cs

/-- `jointNames` over a list of joints, in sibling order. -/
def jointNamesList {T : Type} : List (Joint T) → List String
  | [] => []
  | j :: rest => jointNames j ++ jointNamesList rest
end

mutual
/-- Number of joints in a joint subtree. -/
def jointCount {T : Type} : Joint T → Nat
  | .mk _ _ cs => 1 + jointCountList cs

/-- `jointCount` over a list of joints. -/
def jointCountList {T : Type} : List (Joint T) → Nat
  | [] => 0
  | j :: rest => jointCount j + jointCountList rest
end

mutual
/-- Reference forest of joint shapes, written from the specification: an
accepted node becomes one tree whose children are the forest of its scene
children; an excluded or attribute-less node contributes its children's
forest at the current level (its accepted descendants attach to the nearest
accepted ancestor). -/
def specForest {M : Type} (types : NodeType) : FbxNode M → List NameTree
  | node@(.mk _ n _ _ _ children) =>
    if NodeAccepted types node then [.mk n (specForestList types children)]
    else specForestList types children

/-- `specForest` over a list of sibling subtrees, in sibling order. -/
def specForestList {M : Type} (types : NodeType) : List (FbxNode M) → List NameTree
  | [] => []
  | c :: rest => specForest types c ++ specForestList types rest
end

mutual
/-- Reference forest with transforms, written from the specification: an
accepted node becomes a joint whose transform is the conversion of
(parent-inverse × its resolved world bind transform) and whose children are
built under the inverse of that resolved world transform; an excluded or
attribute-less node leaves the parent context unchanged.  Under a successful
extraction every conversion succeeds, so `getD` never takes the default. -/
def expectedForest {M T : Type} (env : FbxEnv M T) (scene : FbxScene M)
    (clusters : List (FbxCluster M)) (types : NodeType) :
    FbxNode M → M → List (Joint T)
  | node@(.mk _ n _ _ _ children), parent_inv =>
    if NodeAccepted types node then
      let world := ResolveBindPose scene clusters node
      [.mk n ((env.convertTransform (env.mul parent_inv world)).getD env.defaultTransform)
          (expectedForestList env scene clusters types children (env.inv world))]
    else expectedForestList env scene clusters types children parent_inv

/-- `expectedForest` over a list of sibling subtrees, in sibling order. -/
def expectedForestList {M T : Type} (env : FbxEnv M T) (scene : FbxScene M)
    (clusters : List (FbxCluster M)) (types : NodeType) :
    List (FbxNode M) → M → List (Joint T)
  | [], _ => []
  | c :: rest, parent_inv =>
    expectedForest env scene clusters types c parent_inv ++
      expectedForestList env scene clusters types rest parent_inv
end

end OzzFbx

namespace OzzTrack

/-- The runtime FloatTrack as reached through track->times() and
track->values(): two parallel ranges of keyframe times and values.  C++
floats are modelled as rationals. -/
structure FloatTrack where
  times : List ℚ
  values : List ℚ
deriving DecidableEq, Repr

/-- math::Clamp(0.f, time, 1.f) = Max(0, Min(time, 1)). -/
def clamp01 (t : ℚ) : ℚ := max 0 (min t 1)

/-- std::upper_bound over the sorted times range: the index of the first
element strictly greater than x, or the length of the range when there is
none. -/
def upperBound (l : List ℚ) (x : ℚ) : Nat :=
  match l with
  | [] => 0
  | t :: rest => if x < t then 0 else upperBound rest x + 1

/-- A read through a raw pointer at a signed index from a range's begin:
none models an out-of-range access (undefined behavior in the C++). -/
def readAt (l : List ℚ) (i : Int) : Option ℚ :=
  if 0 ≤ i then l[i.toNat]? else none

/-- FloatTrackSamplingJob: the time input, the track pointer (none models
NULL) and whether the result pointer is non-NULL. -/
structure FloatTrackSamplingJob where
  time : ℚ
  track : Option FloatTrack
  hasResult : Bool
deriving DecidableEq, Repr

/-- float_track_sampling_job.cc lines 40-45, Validate: both pointers must be
non-NULL. -/
def FloatTrackSamplingJob.Validate (job : FloatTrackSamplingJob) : Bool :=
  job.hasResult && job.track.isSome

/-- float_track_sampling_job.cc lines 47-80, Run.  Returns none when the C++
would read out of the ranges' bounds (undefined behavior); otherwise
some (returned bool, value written through the result pointer — none when
nothing is written).  `k1` models the iterator ptk1 after the end patch of
lines 65-67 as a signed index, and Lerp(a, b, t) = (b - a) * t + a. -/
def FloatTrackSamplingJob.Run (job : FloatTrackSamplingJob) : Option (Bool × Option ℚ) :=
  if ¬ job.Validate then some (false, none)
  else
    match job.track with
    | none => none
    | some track =>
      let clamped_time := clamp01 job.time
      let i := upperBound track.times clamped_time
      let k1 : Int := if i = track.times.length then (i : Int) - 1 else (i : Int)
      match readAt track.times (k1 - 1), readAt track.times k1,
          readAt track.values (k1 - 1), readAt track.values k1 with
      | some tk0, some tk1, some vk0, some vk1 =>
        let alpha := (clamped_time - tk0) / (tk1 - tk0)
        some (true, some ((vk1 - vk0) * alpha + vk0))
      | _, _, _, _ => none

/-- The well-formedness the claim assumes of a track: non-empty, strictly
increasing key times, starting at 0. -/
def WellFormedTimes (l : List ℚ) : Prop :=
  l ≠ [] ∧ List.Chain' (· < ·) l ∧ l.head? = some 0

end OzzTrack

namespace OzzFbx

/-- Whether a tri-state is the error case. -/
def RecurseReturn.isError : RecurseReturn → Bool
  | .kError _ => true
  | .kSkeletonFound => false
  | .kNoSkeleton => false

/-- Whether one entry of the scene's pose list would satisfy the pose scan of
lines 136-145 for the given node: it is non-null, flagged as a bind pose, and
contains the node. -/
def poseHit {M : Type} : Option (FbxPose M) → Nat → Bool
  | none, _ => false
  | some p, id => p.isBindPose && (p.find id).isSome

/-- Concrete data for instantiating the theorems below: matrices and
transforms are integers, multiplication is addition, inversion is negation,
conversion succeeds and is the identity. -/
def sampleEnv : FbxEnv Int Int :=
  ⟨fun a b => a + b, fun a => -a, 0, fun x => some x, 0⟩

/-- `sampleEnv` with a conversion service that always fails. -/
def sampleEnvFail : FbxEnv Int Int :=
  ⟨fun a b => a + b, fun a => -a, 0, fun _ => none, 0⟩

/-- A skeleton-attributed leaf node. -/
def sampleNodeA : FbxNode Int := .mk 1 "A" (some .eSkeleton) 5 none []

/-- A skeleton-attributed leaf node. -/
def sampleNodeC : FbxNode Int := .mk 3 "C" (some .eSkeleton) 9 none []

/-- A camera-attributed node (excluded under skeleton-only selection) with an
accepted child. -/
def sampleNodeB : FbxNode Int := .mk 2 "B" (some .eCamera) 7 none [sampleNodeC]

/-- An attribute-less root with children A and B. -/
def sampleRoot : FbxNode Int := .mk 0 "root" none 0 none [sampleNodeA, sampleNodeB]

/-- A small scene with accepted, excluded and attribute-less nodes. -/
def sampleScene : FbxScene Int := ⟨sampleRoot, []⟩

/-- A scene whose only node has no attribute. -/
def emptyScene : FbxScene Int := ⟨.mk 0 "root" none 0 none [], []⟩

/-- Selection configuration accepting only skeleton-attributed nodes. -/
def sampleTypes : NodeType := ⟨true, false, false, false, false, false⟩

/-- Selection configuration with the "any" flag set. -/
def sampleTypesAny : NodeType := ⟨false, false, false, false, false, true⟩

/-- A cluster linking node 1. -/
def sampleCluster1 : FbxCluster Int := ⟨1, 11⟩

/-- A second cluster linking node 1. -/
def sampleCluster2 : FbxCluster Int := ⟨1, 22⟩

/-- A cluster linking an unrelated node. -/
def sampleClusterOther : FbxCluster Int := ⟨9, 99⟩

/-- A bind-pose snapshot containing node 1. -/
def samplePose : FbxPose Int := ⟨true, [(1, 33)]⟩

/-- A pose snapshot containing node 1 that is not flagged as a bind pose. -/
def samplePoseNotBind : FbxPose Int := ⟨false, [(1, 44)]⟩

end OzzFbx

/-! Structural lemmas about the recursive walk. -/

namespace OzzFbx

mutual
/-- The sibling list only ever grows by appending: running RecurseNode on any
sibling list equals appending what a run on the empty list produces, with the
same tri-state. -/
theorem recurseNode_frame {M T : Type} (env : FbxEnv M T) (scene : FbxScene M)
    (clusters : List (FbxCluster M)) (types : NodeType) (node : FbxNode M)
    (pInv : M) (sibs : List (Joint T)) :
    RecurseNode env scene clusters types node pInv sibs
      = ((RecurseNode env scene clusters types node pInv []).1,
         sibs ++ (RecurseNode env scene clusters types node pInv []).2) := by
  cases node with
  | mk i n a w m children =>
    by_cases hacc : NodeAccepted types (FbxNode.mk i n a w m children)
    · simp only [RecurseNode, hacc, if_pos]
      cases henv : env.convertTransform
          (env.mul pInv (ResolveBindPose scene clusters (FbxNode.mk i n a w m children))) with
      | none => simp
      | some t => simp
    · simp only [RecurseNode, hacc, if_neg, Bool.false_eq_true, not_false_iff]
      rw [recurseChildren_frame env scene clusters types children pInv sibs false,
        recurseChildren_frame env scene clusters types children pInv [] false]

/-- Frame property for the child loop. -/
theorem recurseChildren_frame {M T : Type} (env : FbxEnv M T) (scene : FbxScene M)
    (clusters : List (FbxCluster M)) (types : NodeType) (nodes : List (FbxNode M))
    (pInv : M) (sibs : List (Joint T)) (found : Bool) :
    RecurseChildren env scene clusters types nodes pInv sibs found
      = ((RecurseChildren env scene clusters types nodes pInv [] found).1,
         sibs ++ (RecurseChildren env scene clusters types nodes pInv [] found).2) := by
  cases nodes with
  | nil => simp [RecurseChildren]
  | cons child rest =>
    rw [RecurseChildren, RecurseChildren,
      recurseNode_frame env scene clusters types child pInv sibs,
      recurseNode_frame env scene clusters types child pInv []]
    cases h1 : (RecurseNode env scene clusters types child pInv []).1 with
    | kError n => simp
    | kSkeletonFound =>
      simp only [List.nil_append]
      rw [recurseChildren_frame env scene clusters types rest pInv
          (sibs ++ (RecurseNode env scene clusters types child pInv []).2) true,
        recurseChildren_frame env scene clusters types rest pInv
          (RecurseNode env scene clusters types child pInv []).2 true]
      simp
    | kNoSkeleton =>
      simp only [List.nil_append]
      rw [recurseChildren_frame env scene clusters types rest pInv
          (sibs ++ (RecurseNode env scene clusters types child pInv []).2) found,
        recurseChildren_frame env scene clusters types rest pInv
          (RecurseNode env scene clusters types child pInv []).2 found]
      simp
end

mutual
/-- A subtree in which no node passes the acceptance test contributes nothing:
the walk returns kNoSkeleton and leaves the sibling list untouched. -/
theorem recurseNode_notAccepted {M T : Type} (env : FbxEnv M T) (scene : FbxScene M)
    (clusters : List (FbxCluster M)) (types : NodeType) (node : FbxNode M)
    (pInv : M) (sibs : List (Joint T)) (h : anyAccepted types node = false) :
    RecurseNode env scene clusters types node pInv sibs = (.kNoSkeleton, sibs) := by
  cases node with
  | mk i n a w m children =>
    simp only [anyAccepted, Bool.or_eq_false_iff] at h
    rw [RecurseNode]
    rw [if_neg (by simp [h.1])]
    rw [recurseChildren_notAccepted env scene clusters types children pInv sibs false h.2]
    simp

/-- Sibling subtrees in which no node passes the acceptance test leave the
loop state unchanged. -/
theorem recurseChildren_notAccepted {M T : Type} (env : FbxEnv M T) (scene : FbxScene M)
    (clusters : List (FbxCluster M)) (types : NodeType) (nodes : List (FbxNode M))
    (pInv : M) (sibs : List (Joint T)) (found : Bool)
    (h : anyAcceptedList types nodes = false) :
    RecurseChildren env scene clusters types nodes pInv sibs found
      = (if found then .kSkeletonFound else .kNoSkeleton, sibs) := by
  cases nodes with
  | nil => rw [RecurseChildren]
  | cons child rest =>
    simp only [anyAcceptedList, Bool.or_eq_false_iff] at h
    rw [RecurseChildren,
      recurseNode_notAccepted env scene clusters types child pInv sibs h.1]
    exact recurseChildren_notAccepted env scene clusters types rest pInv sibs found h.2
end

mutual
/-- If the walk of a subtree reports kNoSkeleton then no node of the subtree
passed the acceptance test and the sibling list is unchanged. -/
theorem recurseNode_kNoSkeleton {M T : Type} (env : FbxEnv M T) (scene : FbxScene M)
    (clusters : List (FbxCluster M)) (types : NodeType) (node : FbxNode M)
    (pInv : M) (sibs : List (Joint T))
    (h : (RecurseNode env scene clusters types node pInv sibs).1 = .kNoSkeleton) :
    anyAccepted types node = false
      ∧ (RecurseNode env scene clusters types node pInv sibs).2 = sibs := by
  cases node with
  | mk i n a w m children =>
    by_cases hacc : NodeAccepted types (FbxNode.mk i n a w m children) = true
    · exfalso
      rw [RecurseNode, if_pos hacc] at h
      cases henv : env.convertTransform
          (env.mul pInv (ResolveBindPose scene clusters (FbxNode.mk i n a w m children))) with
      | none => simp [henv] at h
      | some t =>
        simp only [henv] at h
        have := recurseChildren_kNoSkeleton env scene clusters types children
          (env.inv (ResolveBindPose scene clusters (FbxNode.mk i n a w m children))) [] true h
        exact Bool.noConfusion this.1
    · rw [RecurseNode, if_neg hacc] at h ⊢
      have := recurseChildren_kNoSkeleton env scene clusters types children pInv sibs false h
      refine ⟨?_, this.2.2⟩
      simp only [anyAccepted, Bool.or_eq_false_iff]
      exact ⟨by simpa using hacc, this.2.1⟩

/-- If the child loop reports kNoSkeleton then the incoming flag was false, no
node of any sibling subtree passed the acceptance test, and the sibling list
is unchanged. -/
theorem recurseChildren_kNoSkeleton {M T : Type} (env : FbxEnv M T) (scene : FbxScene M)
    (clusters : List (FbxCluster M)) (types : NodeType) (nodes : List (FbxNode M))
    (pInv : M) (sibs : List (Joint T)) (found : Bool)
    (h : (RecurseChildren env scene clusters types nodes pInv sibs found).1 = .kNoSkeleton) :
    found = false ∧ anyAcceptedList types nodes = false
      ∧ (RecurseChildren env scene clusters types nodes pInv sibs found).2 = sibs := by
  cases nodes with
  | nil =>
    rw [RecurseChildren] at h ⊢
    cases found with
    | true => exact absurd h (by simp)
    | false => exact ⟨rfl, rfl, rfl⟩
  | cons child rest =>
    rw [RecurseChildren] at h ⊢
    rcases hc : RecurseNode env scene clusters types child pInv sibs with ⟨r, s'⟩
    rw [hc] at h
    cases r with
    | kError n => exact absurd h (by simp)
    | kSkeletonFound =>
      simp only at h ⊢
      have := recurseChildren_kNoSkeleton env scene clusters types rest pInv s' true h
      exact Bool.noConfusion this.1
    | kNoSkeleton =>
      simp only at h ⊢
      have hnode := recurseNode_kNoSkeleton env scene clusters types child pInv sibs
        (by rw [hc])
      have hrest := recurseChildren_kNoSkeleton env scene clusters types rest pInv s' found h
      rw [hc] at hnode
      refine ⟨hrest.1, ?_, ?_⟩
      · simp only [anyAcceptedList, Bool.or_eq_false_iff]
        exact ⟨hnode.1, hrest.2.1⟩
      · rw [hrest.2.2]
        simpa using hnode.2
end

/-- The child loop never removes joints from the sibling list. -/
theorem recurseChildren_length_le {M T : Type} (env : FbxEnv M T) (scene : FbxScene M)
    (clusters : List (FbxCluster M)) (types : NodeType) (nodes : List (FbxNode M))
    (pInv : M) (sibs : List (Joint T)) (found : Bool) :
    sibs.length ≤ (RecurseChildren env scene clusters types nodes pInv sibs found).2.length := by
  rw [recurseChildren_frame]
  simp

mutual
/-- A walk that reports kSkeletonFound appended at least one joint. -/
theorem recurseNode_found_length {M T : Type} (env : FbxEnv M T) (scene : FbxScene M)
    (clusters : List (FbxCluster M)) (types : NodeType) (node : FbxNode M)
    (pInv : M) (sibs : List (Joint T))
    (h : (RecurseNode env scene clusters types node pInv sibs).1 = .kSkeletonFound) :
    sibs.length < (RecurseNode env scene clusters types node pInv sibs).2.length := by
  cases node with
  | mk i n a w m children =>
    by_cases hacc : NodeAccepted types (FbxNode.mk i n a w m children) = true
    · rw [RecurseNode, if_pos hacc] at h ⊢
      cases henv : env.convertTransform
          (env.mul pInv (ResolveBindPose scene clusters (FbxNode.mk i n a w m children))) with
      | none => simp [henv] at h
      | some t => simp [henv]
    · rw [RecurseNode, if_neg hacc] at h ⊢
      rcases recurseChildren_found_length env scene clusters types children pInv sibs false h
        with hfalse | hlt
      · exact Bool.noConfusion hfalse
      · exact hlt

/-- If the child loop reports kSkeletonFound then either the flag was already
true or some joint was appended. -/
theorem recurseChildren_found_length {M T : Type} (env : FbxEnv M T) (scene : FbxScene M)
    (clusters : List (FbxCluster M)) (types : NodeType) (nodes : List (FbxNode M))
    (pInv : M) (sibs : List (Joint T)) (found : Bool)
    (h : (RecurseChildren env scene clusters types nodes pInv sibs found).1 = .kSkeletonFound) :
    found = true
      ∨ sibs.length < (RecurseChildren env scene clusters types nodes pInv sibs found).2.length := by
  cases nodes with
  | nil =>
    rw [RecurseChildren] at h
    cases found with
    | true => exact Or.inl rfl
    | false => exact absurd h (by simp)
  | cons child rest =>
    rw [RecurseChildren] at h ⊢
    rcases hc : RecurseNode env scene clusters types child pInv sibs with ⟨r, s'⟩
    rw [hc] at h
    cases r with
    | kError n => exact absurd h (by simp)
    | kSkeletonFound =>
      simp only at h ⊢
      refine Or.inr (lt_of_lt_of_le ?_
        (recurseChildren_length_le env scene clusters types rest pInv s' true))
      have := recurseNode_found_length env scene clusters types child pInv sibs (by rw [hc])
      rw [hc] at this
      exact this
    | kNoSkeleton =>
      simp only at h ⊢
      have hnode := recurseNode_kNoSkeleton env scene clusters types child pInv sibs (by rw [hc])
      rw [hc] at hnode
      rcases recurseChildren_found_length env scene clusters types rest pInv s' found h
        with hfound | hlt
      · exact Or.inl hfound
      · have hs : s' = sibs := by simpa using hnode.2
        exact Or.inr (hs ▸ hlt)
end

mutual
/-- When no conversion error occurs, the walk appends exactly the reference
forest `expectedForest` (same joints, names, transforms and child structure)
to the sibling list. -/
theorem recurseNode_expected {M T : Type} (env : FbxEnv M T) (scene : FbxScene M)
    (clusters : List (FbxCluster M)) (types : NodeType) (node : FbxNode M)
    (pInv : M) (sibs : List (Joint T))
    (h : (RecurseNode env scene clusters types node pInv sibs).1.isError = false) :
    (RecurseNode env scene clusters types node pInv sibs).2
      = sibs ++ expectedForest env scene clusters types node pInv := by
  cases node with
  | mk i n a w m children =>
    by_cases hacc : NodeAccepted types (FbxNode.mk i n a w m children) = true
    · rw [RecurseNode, if_pos hacc] at h ⊢
      rw [expectedForest, if_pos hacc]
      cases henv : env.convertTransform
          (env.mul pInv (ResolveBindPose scene clusters (FbxNode.mk i n a w m children))) with
      | none => simp [henv, RecurseReturn.isError] at h
      | some t =>
        simp only [henv] at h ⊢
        have hchild := recurseChildren_expected env scene clusters types children
          (env.inv (ResolveBindPose scene clusters (FbxNode.mk i n a w m children))) [] true h
        rw [hchild]
        simp [FbxNode.name]
    · rw [RecurseNode, if_neg hacc] at h ⊢
      rw [expectedForest, if_neg hacc]
      exact recurseChildren_expected env scene clusters types children pInv sibs false h

/-- `recurseNode_expected` for the child loop. -/
theorem recurseChildren_expected {M T : Type} (env : FbxEnv M T) (scene : FbxScene M)
    (clusters : List (FbxCluster M)) (types : NodeType) (nodes : List (FbxNode M))
    (pInv : M) (sibs : List (Joint T)) (found : Bool)
    (h : (RecurseChildren env scene clusters types nodes pInv sibs found).1.isError = false) :
    (RecurseChildren env scene clusters types nodes pInv sibs found).2
      = sibs ++ expectedForestList env scene clusters types nodes pInv := by
  cases nodes with
  | nil => rw [RecurseChildren, expectedForestList]; simp
  | cons child rest =>
    rw [RecurseChildren] at h ⊢
    rw [expectedForestList]
    rcases hc : RecurseNode env scene clusters types child pInv sibs with ⟨r, s'⟩
    rw [hc] at h
    cases r with
    | kError n => simp [RecurseReturn.isError] at h
    | kSkeletonFound =>
      simp only at h ⊢
      have hnode := recurseNode_expected env scene clusters types child pInv sibs
        (by rw [hc]; exact rfl)
      rw [hc] at hnode
      simp only at hnode
      rw [recurseChildren_expected env scene clusters types rest pInv s' true h, hnode,
        List.append_assoc]
    | kNoSkeleton =>
      simp only at h ⊢
      have hnode := recurseNode_expected env scene clusters types child pInv sibs
        (by rw [hc]; exact rfl)
      rw [hc] at hnode
      simp only at hnode
      rw [recurseChildren_expected env scene clusters types rest pInv s' found h, hnode,
        List.append_assoc]
end

/-- `Joint.shapeList` distributes over list append. -/
theorem Joint.shapeList_append {T : Type} (a b : List (Joint T)) :
    Joint.shapeList (a ++ b) = Joint.shapeList a ++ Joint.shapeList b := by
  induction a with
  | nil => simp [Joint.shapeList]
  | cons j rest ih => simp [Joint.shapeList, ih]

/-- `jointNamesList` distributes over list append. -/
theorem jointNamesList_append {T : Type} (a b : List (Joint T)) :
    jointNamesList (a ++ b) = jointNamesList a ++ jointNamesList b := by
  induction a with
  | nil => simp [jointNamesList]
  | cons j rest ih => simp [jointNamesList, ih]

mutual
/-- The shape of the reference forest is the specification forest of names. -/
theorem expectedForest_shape {M T : Type} (env : FbxEnv M T) (scene : FbxScene M)
    (clusters : List (FbxCluster M)) (types : NodeType) (node : FbxNode M) (pInv : M) :
    Joint.shapeList (expectedForest env scene clusters types node pInv)
      = specForest types node := by
  cases node with
  | mk i n a w m children =>
    by_cases hacc : NodeAccepted types (FbxNode.mk i n a w m children) = true
    · rw [expectedForest, if_pos hacc, specForest, if_pos hacc]
      simp only [Joint.shapeList, Joint.shape]
      rw [expectedForestList_shape env scene clusters types children
        (env.inv (ResolveBindPose scene clusters (FbxNode.mk i n a w m children)))]
    · rw [expectedForest, if_neg hacc, specForest, if_neg hacc]
      exact expectedForestList_shape env scene clusters types children pInv

/-- `expectedForest_shape` over sibling lists. -/
theorem expectedForestList_shape {M T : Type} (env : FbxEnv M T) (scene : FbxScene M)
    (clusters : List (FbxCluster M)) (types : NodeType) (nodes : List (FbxNode M)) (pInv : M) :
    Joint.shapeList (expectedForestList env scene clusters types nodes pInv)
      = specForestList types nodes := by
  cases nodes with
  | nil => rw [expectedForestList, specForestList]; rfl
  | cons child rest =>
    rw [expectedForestList, specForestList, Joint.shapeList_append,
      expectedForest_shape env scene clusters types child pInv,
      expectedForestList_shape env scene clusters types rest pInv]
end

mutual
/-- With the "any" flag set, the names of the reference forest are exactly the
pre-order names of the attributed nodes. -/
theorem expectedForest_names_any {M T : Type} (env : FbxEnv M T) (scene : FbxScene M)
    (clusters : List (FbxCluster M)) (types : NodeType) (node : FbxNode M) (pInv : M)
    (hany : types.any = true) :
    jointNamesList (expectedForest env scene clusters types node pInv)
      = attributedNames node := by
  cases node with
  | mk i n a w m children =>
    cases a with
    | some t =>
      have hacc : NodeAccepted types (FbxNode.mk i n (some t) w m children) = true := by
        simp [NodeAccepted, FbxNode.attr, IsTypeSelected, hany]
      rw [expectedForest, if_pos hacc, attributedNames]
      simp only [jointNamesList, jointNames, Option.isSome_some, if_pos, List.append_nil]
      rw [expectedForestList_names_any env scene clusters types children
        (env.inv (ResolveBindPose scene clusters (FbxNode.mk i n (some t) w m children))) hany]
      simp
    | none =>
      have hacc : ¬ NodeAccepted types (FbxNode.mk i n none w m children) = true := by
        simp [NodeAccepted, FbxNode.attr]
      rw [expectedForest, if_neg hacc, attributedNames]
      simp only [Option.isSome_none, Bool.false_eq_true, if_neg, List.nil_append]
      exact expectedForestList_names_any env scene clusters types children pInv hany

/-- `expectedForest_names_any` over sibling lists. -/
theorem expectedForestList_names_any {M T : Type} (env : FbxEnv M T) (scene : FbxScene M)
    (clusters : List (FbxCluster M)) (types : NodeType) (nodes : List (FbxNode M)) (pInv : M)
    (hany : types.any = true) :
    jointNamesList (expectedForestList env scene clusters types nodes pInv)
      = attributedNamesList nodes := by
  cases nodes with
  | nil => rw [expectedForestList, attributedNamesList]; rfl
  | cons child rest =>
    rw [expectedForestList, attributedNamesList, jointNamesList_append,
      expectedForest_names_any env scene clusters types child pInv hany,
      expectedForestList_names_any env scene clusters types rest pInv hany]
end

mutual
/-- A joint subtree contributes as many joints as names. -/
theorem jointCount_eq_names_length {T : Type} (j : Joint T) :
    jointCount j = (jointNames j).length := by
  cases j with
  | mk n t cs =>
    rw [jointCount, jointNames]
    simp only [List.length_cons]
    rw [jointCountList_eq_names_length cs]
    omega

/-- `jointCount_eq_names_length` over lists of joints. -/
theorem jointCountList_eq_names_length {T : Type} (l : List (Joint T)) :
    jointCountList l = (jointNamesList l).length := by
  cases l with
  | nil => rw [jointCountList, jointNamesList]; rfl
  | cons j rest =>
    rw [jointCountList, jointNamesList, List.length_append,
      jointCount_eq_names_length j, jointCountList_eq_names_length rest]
end

/-- The inner cluster loop of CollectClusters (lines 182-187) appends the
non-null clusters of one skin deformer. -/
theorem collect_inner_fold {M : Type} (skin : List (Option (FbxCluster M)))
    (acc : List (FbxCluster M)) :
    skin.foldl (fun acc c =>
        match c with
        | some cluster => acc ++ [cluster]
        | none => acc) acc
      = acc ++ skin.filterMap id := by
  induction skin generalizing acc with
  | nil => simp
  | cons c rest ih =>
    cases c with
    | none => simp [List.foldl_cons, ih]
    | some cluster => simp [List.foldl_cons, ih]

/-- The deformer loop of CollectClusters (lines 179-188) appends the non-null
clusters of every skin deformer of a mesh. -/
theorem collect_outer_fold {M : Type} (skins : List (List (Option (FbxCluster M))))
    (acc : List (FbxCluster M)) :
    skins.foldl (fun acc skin =>
        skin.foldl (fun acc c =>
          match c with
          | some cluster => acc ++ [cluster]
          | none => acc) acc) acc
      = acc ++ skins.flatMap (fun skin => skin.filterMap id) := by
  induction skins generalizing acc with
  | nil => simp
  | cons skin rest ih =>
    rw [List.foldl_cons, ih, collect_inner_fold]
    simp

mutual
/-- CollectClusters appends, to any accumulator, the non-null clusters of the
mesh of every node of the subtree, in depth-first pre-order. -/
theorem collectClusters_eq {M : Type} (node : FbxNode M) (acc : List (FbxCluster M)) :
    CollectClusters node acc = acc ++ (preorder node).flatMap nodeClusters := by
  cases node with
  | mk i n a w m children =>
    simp only [CollectClusters]
    have hmesh :
        (match m with
          | none => acc
          | some skins =>
            skins.foldl (fun acc skin =>
              skin.foldl (fun acc c =>
                match c with
                | some cluster => acc ++ [cluster]
                | none => acc) acc) acc)
          = acc ++ nodeClusters (FbxNode.mk i n a w m children) := by
      cases m with
      | none => simp [nodeClusters, FbxNode.mesh]
      | some skins =>
        simp only []
        rw [collect_outer_fold]
        simp [nodeClusters, FbxNode.mesh]
    rw [hmesh, collectClustersList_eq children]
    rw [preorder]
    simp [List.append_assoc]

/-- `collectClusters_eq` over sibling lists. -/
theorem collectClustersList_eq {M : Type} (nodes : List (FbxNode M))
    (acc : List (FbxCluster M)) :
    CollectClustersList nodes acc = acc ++ (preorderList nodes).flatMap nodeClusters := by
  cases nodes with
  | nil => rw [CollectClustersList, preorderList]; simp
  | cons child rest =>
    rw [CollectClustersList, collectClusters_eq child acc, collectClustersList_eq rest,
      preorderList]
    simp [List.append_assoc]
end

mutual
/-- A subtree with no attributed node has no accepted node, for any selection
configuration. -/
theorem anyAccepted_of_not_attributed {M : Type} (types : NodeType) (node : FbxNode M)
    (h : anyAttributed node = false) : anyAccepted types node = false := by
  cases node with
  | mk i n a w m children =>
    simp only [anyAttributed, Bool.or_eq_false_iff] at h
    simp only [anyAccepted, Bool.or_eq_false_iff]
    constructor
    · cases a with
      | none => simp [NodeAccepted, FbxNode.attr]
      | some t => simp at h
    · exact anyAcceptedList_of_not_attributed types children h.2

/-- `anyAccepted_of_not_attributed` over sibling lists. -/
theorem anyAcceptedList_of_not_attributed {M : Type} (types : NodeType)
    (nodes : List (FbxNode M)) (h : anyAttributedList nodes = false) :
    anyAcceptedList types nodes = false := by
  cases nodes with
  | nil => rw [anyAcceptedList]
  | cons child rest =>
    simp only [anyAttributedList, Bool.or_eq_false_iff] at h
    simp only [anyAcceptedList, Bool.or_eq_false_iff]
    exact ⟨anyAccepted_of_not_attributed types child h.1,
      anyAcceptedList_of_not_attributed types rest h.2⟩
end

/-- List.find? returns the first match: with no match in the prefix and a
match at `c`, the suffix beyond `c` is irrelevant. -/
theorem find?_first_match {M : Type} (p : FbxCluster M → Bool)
    (pre : List (FbxCluster M)) (c : FbxCluster M)
    (hpre : ∀ c₂ ∈ pre, p c₂ = false) (hc : p c = true) (post : List (FbxCluster M)) :
    List.find? p (pre ++ c :: post) = some c := by
  induction pre with
  | nil => simp [List.find?_cons, hc]
  | cons a rest ih =>
    have ha : p a = false := hpre a (by simp)
    simp only [List.cons_append, List.find?_cons, ha]
    exact ih (fun c₂ hmem => hpre c₂ (by simp [hmem]))

/-- The pose scan returns the matrix of the first non-null bind-pose-flagged
pose containing the node; entries before it that are null, not bind-pose
flagged, or not containing the node are skipped. -/
theorem findBindPoseMatrix_first {M : Type} (id : Nat)
    (pre : List (Option (FbxPose M))) (p : FbxPose M) (post : List (Option (FbxPose M)))
    (hpre : ∀ q ∈ pre, poseHit q id = false)
    (hbind : p.isBindPose = true) (m : M) (hfind : p.find id = some m) :
    findBindPoseMatrix (pre ++ some p :: post) id = some m := by
  induction pre with
  | nil => simp [findBindPoseMatrix, hbind, hfind]
  | cons q rest ih =>
    have hq : poseHit q id = false := hpre q (by simp)
    cases q with
    | none =>
      simp only [List.cons_append, findBindPoseMatrix]
      exact ih (fun q₂ hmem => hpre q₂ (by simp [hmem]))
    | some q₀ =>
      simp only [poseHit, Bool.and_eq_false_iff] at hq
      simp only [List.cons_append, findBindPoseMatrix]
      rcases hq with hq | hq
      · rw [if_neg (by simp [hq])]
        exact ih (fun q₂ hmem => hpre q₂ (by simp [hmem]))
      · by_cases hb : q₀.isBindPose = true
        · rw [if_pos hb]
          cases hf : q₀.find id with
          | some m₂ => rw [hf] at hq; simp at hq
          | none => exact ih (fun q₂ hmem => hpre q₂ (by simp [hmem]))
        · rw [if_neg hb]
          exact ih (fun q₂ hmem => hpre q₂ (by simp [hmem]))

/-- The pose scan finds nothing when no entry is a non-null bind-pose-flagged
pose containing the node. -/
theorem findBindPoseMatrix_none {M : Type} (id : Nat) (poses : List (Option (FbxPose M)))
    (h : ∀ q ∈ poses, poseHit q id = false) :
    findBindPoseMatrix poses id = none := by
  induction poses with
  | nil => rw [findBindPoseMatrix]
  | cons q rest ih =>
    have hq : poseHit q id = false := h q (by simp)
    cases q with
    | none =>
      rw [findBindPoseMatrix]
      exact ih (fun q₂ hmem => h q₂ (by simp [hmem]))
    | some q₀ =>
      simp only [poseHit, Bool.and_eq_false_iff] at hq
      rw [findBindPoseMatrix]
      rcases hq with hq | hq
      · rw [if_neg (by simp [hq])]
        exact ih (fun q₂ hmem => h q₂ (by simp [hmem]))
      · by_cases hb : q₀.isBindPose = true
        · rw [if_pos hb]
          cases hf : q₀.find id with
          | some m₂ => rw [hf] at hq; simp at hq
          | none => exact ih (fun q₂ hmem => h q₂ (by simp [hmem]))
        · rw [if_neg hb]
          exact ih (fun q₂ hmem => h q₂ (by simp [hmem]))

/-- When ExtractSkeleton returns true, the output roots are the input roots
followed by the reference forest. -/
theorem extract_success_roots {M T : Type} (env : FbxEnv M T) (scene : FbxScene M)
    (types : NodeType) (sk : RawSkeleton T)
    (h : (ExtractSkeleton env scene types sk).1 = true) :
    (ExtractSkeleton env scene types sk).2.1.roots
      = sk.roots ++ expectedForest env scene (CollectClusters scene.root []) types
          scene.root env.identity := by
  rcases hr : RecurseNode env scene (CollectClusters scene.root []) types
      scene.root env.identity sk.roots with ⟨r, roots⟩
  have key : ExtractSkeleton env scene types sk
      = (match (r, roots) with
         | (.kNoSkeleton, roots) => (false, ⟨roots⟩, ExtractStatus.nothingFound)
         | (.kError n, roots) => (false, ⟨roots⟩, ExtractStatus.conversionFailure n)
         | (.kSkeletonFound, roots) => (true, ⟨roots⟩, ExtractStatus.success)) := by
    rw [← hr]; rfl
  rw [key] at h ⊢
  cases r with
  | kError n => simp at h
  | kNoSkeleton => simp at h
  | kSkeletonFound =>
    simp only
    have := recurseNode_expected env scene (CollectClusters scene.root []) types
      scene.root env.identity sk.roots (by rw [hr]; rfl)
    rw [hr] at this
    exact this

/-! Claim theorems. -/

/-- C1 (counterexample): the claim "if ExtractSkeleton fails the caller-provided
output skeleton is left unchanged" is false: on this scene the first accepted
joint fails conversion, ExtractSkeleton returns false, yet the initially empty
skeleton now holds one root joint. -/
theorem claim_C1_counterexample :
    (ExtractSkeleton sampleEnvFail sampleScene sampleTypes ⟨[]⟩).1 = false
      ∧ (ExtractSkeleton sampleEnvFail sampleScene sampleTypes ⟨[]⟩).2.1.roots.length = 1
      ∧ (ExtractSkeleton sampleEnvFail sampleScene sampleTypes ⟨[]⟩).2.2
          = ExtractStatus.conversionFailure "A" := by
  exact ⟨rfl, rfl, rfl⟩

/-- C1 (amended): when ExtractSkeleton fails with the NothingFound signal the
caller-provided skeleton is left unchanged (no joint was ever appended); a
ConversionFailure aborts immediately but the joints appended before and at the
failing node remain in the caller's skeleton, failure being signalled only by
the returned bool. -/
theorem claim_C1 {M T : Type} (env : FbxEnv M T) (scene : FbxScene M)
    (types : NodeType) (sk : RawSkeleton T)
    (h : (ExtractSkeleton env scene types sk).2.2 = ExtractStatus.nothingFound) :
    (ExtractSkeleton env scene types sk).2.1 = sk := by
  rcases hr : RecurseNode env scene (CollectClusters scene.root []) types
      scene.root env.identity sk.roots with ⟨r, roots⟩
  have key : ExtractSkeleton env scene types sk
      = (match (r, roots) with
         | (.kNoSkeleton, roots) => (false, ⟨roots⟩, ExtractStatus.nothingFound)
         | (.kError n, roots) => (false, ⟨roots⟩, ExtractStatus.conversionFailure n)
         | (.kSkeletonFound, roots) => (true, ⟨roots⟩, ExtractStatus.success)) := by
    rw [← hr]; rfl
  rw [key] at h ⊢
  cases r with
  | kError n => simp at h
  | kSkeletonFound => simp at h
  | kNoSkeleton =>
    simp only
    have := recurseNode_kNoSkeleton env scene (CollectClusters scene.root []) types
      scene.root env.identity sk.roots (by rw [hr])
    rw [hr] at this
    cases sk with
    | mk rts => simp only at this ⊢; rw [this.2]

/-- C1 (witness): on a scene whose only node is attribute-less, extraction
reports NothingFound and the skeleton is unchanged. -/
theorem claim_C1_witness :
    (ExtractSkeleton sampleEnv emptyScene sampleTypes ⟨[]⟩).2.2 = ExtractStatus.nothingFound
      ∧ (ExtractSkeleton sampleEnv emptyScene sampleTypes ⟨[]⟩).2.1 = (⟨[]⟩ : RawSkeleton Int) :=
  ⟨rfl, claim_C1 sampleEnv emptyScene sampleTypes ⟨[]⟩ rfl⟩

/-- C3: extraction (from a fresh skeleton) fails with the distinct NothingFound
signal exactly when no node of the scene passes the acceptance test; a scene
with no attributed node always yields NothingFound; and a successful extraction
returns at least one root joint. -/
theorem claim_C3 {M T : Type} (env : FbxEnv M T) (scene : FbxScene M) (types : NodeType) :
    ((ExtractSkeleton env scene types ⟨[]⟩).1 = false
        ∧ (ExtractSkeleton env scene types ⟨[]⟩).2.2 = ExtractStatus.nothingFound
      ↔ anyAccepted types scene.root = false)
    ∧ (anyAttributed scene.root = false
        → (ExtractSkeleton env scene types ⟨[]⟩).2.2 = ExtractStatus.nothingFound)
    ∧ ((ExtractSkeleton env scene types ⟨[]⟩).2.2 = ExtractStatus.success
        → (ExtractSkeleton env scene types ⟨[]⟩).2.1.roots ≠ []) := by
  rcases hr : RecurseNode env scene (CollectClusters scene.root []) types
      scene.root env.identity ([] : List (Joint T)) with ⟨r, roots⟩
  have key : ExtractSkeleton env scene types ⟨[]⟩
      = (match (r, roots) with
         | (.kNoSkeleton, roots) => (false, ⟨roots⟩, ExtractStatus.nothingFound)
         | (.kError n, roots) => (false, ⟨roots⟩, ExtractStatus.conversionFailure n)
         | (.kSkeletonFound, roots) => (true, ⟨roots⟩, ExtractStatus.success)) := by
    rw [← hr]; rfl
  have hne : anyAccepted types scene.root = true →
      r ≠ RecurseReturn.kNoSkeleton := by
    intro hacc hcontra
    have := recurseNode_kNoSkeleton env scene (CollectClusters scene.root []) types
      scene.root env.identity ([] : List (Joint T)) (by rw [hr, hcontra])
    rw [hacc] at this
    exact Bool.noConfusion this.1
  refine ⟨?_, ?_, ?_⟩
  · constructor
    · intro hlr
      rw [key] at hlr
      cases r with
      | kError n => simp at hlr
      | kSkeletonFound => simp at hlr
      | kNoSkeleton =>
        have := recurseNode_kNoSkeleton env scene (CollectClusters scene.root []) types
          scene.root env.identity ([] : List (Joint T)) (by rw [hr])
        exact this.1
    · intro hacc
      have hrun := recurseNode_notAccepted env scene (CollectClusters scene.root []) types
        scene.root env.identity ([] : List (Joint T)) hacc
      rw [hrun] at hr
      rw [key]
      cases hr
      exact ⟨rfl, rfl⟩
  · intro hattr
    have hacc := anyAccepted_of_not_attributed types scene.root hattr
    have hrun := recurseNode_notAccepted env scene (CollectClusters scene.root []) types
      scene.root env.identity ([] : List (Joint T)) hacc
    rw [hrun] at hr
    rw [key]
    cases hr
    rfl
  · intro hsuccess
    rw [key] at hsuccess ⊢
    cases r with
    | kError n => simp at hsuccess
    | kNoSkeleton => simp at hsuccess
    | kSkeletonFound =>
      simp only
      have := recurseNode_found_length env scene (CollectClusters scene.root []) types
        scene.root env.identity ([] : List (Joint T)) (by rw [hr])
      rw [hr] at this
      simp only [List.length_nil] at this
      intro hcontra
      rw [hcontra] at this
      simp at this

/-- C3 (witness): on the sample scene extraction succeeds with nonempty roots,
and on the attribute-less scene it reports NothingFound. -/
theorem claim_C3_witness :
    ((ExtractSkeleton sampleEnv sampleScene sampleTypes ⟨[]⟩).2.2 = ExtractStatus.success
      ∧ (ExtractSkeleton sampleEnv sampleScene sampleTypes ⟨[]⟩).2.1.roots ≠ [])
    ∧ (anyAttributed emptyScene.root = false
      ∧ (ExtractSkeleton sampleEnv emptyScene sampleTypes ⟨[]⟩).2.2
          = ExtractStatus.nothingFound) :=
  ⟨⟨rfl, (claim_C3 sampleEnv sampleScene sampleTypes).2.2 rfl⟩,
   ⟨rfl, (claim_C3 sampleEnv emptyScene sampleTypes).2.1 rfl⟩⟩

/-- C4: on a successful extraction the produced forest is exactly the
reference forest: each accepted node's joint stores the conversion of
(parent-inverse × its resolved world bind transform), where the parent-inverse
is the inverse of the nearest accepted ancestor's resolved world transform
(the identity for forest roots), and excluded or attribute-less nodes leave
that context unchanged so their accepted descendants attach to the nearest
accepted ancestor. -/
theorem claim_C4 {M T : Type} (env : FbxEnv M T) (scene : FbxScene M)
    (types : NodeType) (sk : RawSkeleton T)
    (h : (ExtractSkeleton env scene types sk).1 = true) :
    (ExtractSkeleton env scene types sk).2.1.roots
      = sk.roots ++ expectedForest env scene (CollectClusters scene.root []) types
          scene.root env.identity :=
  extract_success_roots env scene types sk h

/-- C4 (witness): a successful concrete extraction to which claim_C4 applies. -/
theorem claim_C4_witness :
    (ExtractSkeleton sampleEnv sampleScene sampleTypes ⟨[]⟩).1 = true
      ∧ (ExtractSkeleton sampleEnv sampleScene sampleTypes ⟨[]⟩).2.1.roots
        = [] ++ expectedForest sampleEnv sampleScene
            (CollectClusters sampleScene.root []) sampleTypes sampleScene.root
            sampleEnv.identity :=
  ⟨rfl, claim_C4 sampleEnv sampleScene sampleTypes ⟨[]⟩ rfl⟩

/-- C5: an error at a child short-circuits the loop — the loop's result is
fixed by the failing child alone, independent of every later sibling subtree
(they are never visited) — and an error on the root walk makes ExtractSkeleton
return the ConversionFailure outcome naming the joint of the diagnostic. -/
theorem claim_C5 {M T : Type} (env : FbxEnv M T) (scene : FbxScene M) (types : NodeType) :
    (∀ (clusters : List (FbxCluster M)) (child : FbxNode M) (rest : List (FbxNode M))
        (pInv : M) (sibs : List (Joint T)) (found : Bool) (n : String),
      (RecurseNode env scene clusters types child pInv sibs).1 = RecurseReturn.kError n →
      RecurseChildren env scene clusters types (child :: rest) pInv sibs found
        = (RecurseReturn.kError n, (RecurseNode env scene clusters types child pInv sibs).2))
    ∧ (∀ (sk : RawSkeleton T) (n : String),
      (RecurseNode env scene (CollectClusters scene.root []) types
          scene.root env.identity sk.roots).1 = RecurseReturn.kError n →
      ExtractSkeleton env scene types sk
        = (false,
           ⟨(RecurseNode env scene (CollectClusters scene.root []) types
               scene.root env.identity sk.roots).2⟩,
           ExtractStatus.conversionFailure n)) := by
  constructor
  · intro clusters child rest pInv sibs found n h
    rw [RecurseChildren]
    rcases hc : RecurseNode env scene clusters types child pInv sibs with ⟨r, s'⟩
    rw [hc] at h
    simp only at h
    rw [h]
  · intro sk n h
    rcases hr : RecurseNode env scene (CollectClusters scene.root []) types
        scene.root env.identity sk.roots with ⟨r, roots⟩
    have key : ExtractSkeleton env scene types sk
        = (match (r, roots) with
           | (.kNoSkeleton, roots) => (false, ⟨roots⟩, ExtractStatus.nothingFound)
           | (.kError n, roots) => (false, ⟨roots⟩, ExtractStatus.conversionFailure n)
           | (.kSkeletonFound, roots) => (true, ⟨roots⟩, ExtractStatus.success)) := by
      rw [← hr]; rfl
    rw [hr] at h
    simp only at h
    rw [key, h]

/-- C5 (witness): with a failing converter, the walk of child A fails, and the
loop over [A, B] returns that error without the result depending on B. -/
theorem claim_C5_witness :
    (RecurseNode sampleEnvFail sampleScene [] sampleTypes sampleNodeA 0 []).1
        = RecurseReturn.kError "A"
      ∧ RecurseChildren sampleEnvFail sampleScene [] sampleTypes [sampleNodeA, sampleNodeB] 0 [] false
          = (RecurseReturn.kError "A",
             (RecurseNode sampleEnvFail sampleScene [] sampleTypes sampleNodeA 0 []).2)
      ∧ (RecurseNode sampleEnvFail sampleScene (CollectClusters sampleScene.root [])
            sampleTypes sampleScene.root sampleEnvFail.identity
            (RawSkeleton.roots ⟨[]⟩)).1 = RecurseReturn.kError "A"
      ∧ ExtractSkeleton sampleEnvFail sampleScene sampleTypes ⟨[]⟩
          = (false,
             ⟨(RecurseNode sampleEnvFail sampleScene (CollectClusters sampleScene.root [])
                 sampleTypes sampleScene.root sampleEnvFail.identity
                 (RawSkeleton.roots ⟨[]⟩)).2⟩,
             ExtractStatus.conversionFailure "A") :=
  ⟨rfl,
   (claim_C5 sampleEnvFail sampleScene sampleTypes).1 [] sampleNodeA [sampleNodeB] 0 [] false
     "A" rfl,
   rfl,
   (claim_C5 sampleEnvFail sampleScene sampleTypes).2 ⟨[]⟩ "A" rfl⟩

/-- C6: with the "any" flag set, a successful extraction produces one joint
per attributed node: the pre-order joint names are exactly the pre-order names
of the attributed nodes, and the joint count is the attributed-node count. -/
theorem claim_C6 {M T : Type} (env : FbxEnv M T) (scene : FbxScene M) (types : NodeType)
    (hany : types.any = true)
    (h : (ExtractSkeleton env scene types ⟨[]⟩).1 = true) :
    jointNamesList (ExtractSkeleton env scene types ⟨[]⟩).2.1.roots
        = attributedNames scene.root
      ∧ jointCountList (ExtractSkeleton env scene types ⟨[]⟩).2.1.roots
        = (attributedNames scene.root).length := by
  have hroots := extract_success_roots env scene types ⟨[]⟩ h
  simp only [List.nil_append] at hroots
  constructor
  · rw [hroots]
    exact expectedForest_names_any env scene (CollectClusters scene.root []) types
      scene.root env.identity hany
  · rw [jointCountList_eq_names_length, hroots,
      expectedForest_names_any env scene (CollectClusters scene.root []) types
        scene.root env.identity hany]

/-- C6 (witness): extraction with the "any" flag on the sample scene. -/
theorem claim_C6_witness :
    NodeType.any sampleTypesAny = true
      ∧ (ExtractSkeleton sampleEnv sampleScene sampleTypesAny ⟨[]⟩).1 = true
      ∧ jointNamesList (ExtractSkeleton sampleEnv sampleScene sampleTypesAny ⟨[]⟩).2.1.roots
          = attributedNames sampleScene.root
      ∧ jointCountList (ExtractSkeleton sampleEnv sampleScene sampleTypesAny ⟨[]⟩).2.1.roots
          = (attributedNames sampleScene.root).length :=
  ⟨rfl, rfl,
   (claim_C6 sampleEnv sampleScene sampleTypesAny rfl rfl).1,
   (claim_C6 sampleEnv sampleScene sampleTypesAny rfl rfl).2⟩

/-- C7: on a successful extraction the output joints are the accepted nodes in
depth-first pre-order, each joint's children (and the root list) ordered
exactly as the corresponding scene children: the shape of the output forest is
the specification forest. -/
theorem claim_C7 {M T : Type} (env : FbxEnv M T) (scene : FbxScene M) (types : NodeType)
    (h : (ExtractSkeleton env scene types ⟨[]⟩).1 = true) :
    Joint.shapeList (ExtractSkeleton env scene types ⟨[]⟩).2.1.roots
      = specForest types scene.root := by
  have hroots := extract_success_roots env scene types ⟨[]⟩ h
  simp only [List.nil_append] at hroots
  rw [hroots]
  exact expectedForest_shape env scene (CollectClusters scene.root []) types
    scene.root env.identity

/-- C7 (witness): the successful sample extraction to which claim_C7 applies. -/
theorem claim_C7_witness :
    (ExtractSkeleton sampleEnv sampleScene sampleTypes ⟨[]⟩).1 = true
      ∧ Joint.shapeList (ExtractSkeleton sampleEnv sampleScene sampleTypes ⟨[]⟩).2.1.roots
        = specForest sampleTypes sampleScene.root :=
  ⟨rfl, claim_C7 sampleEnv sampleScene sampleTypes rfl⟩

/-- C2: the resolved world bind transform follows the three-tier chain with
first-match-wins semantics.  (1) If some cluster links the node, the first
such cluster's link transform is used, whatever the clusters after it and
whatever the pose list.  (2) With no matching cluster, the matrix of the
first non-null bind-pose-flagged pose snapshot containing the node is used.
(3) With neither, the node's evaluated world transform is used. -/
theorem claim_C2 {M : Type} (root : FbxNode M) (poses : List (Option (FbxPose M)))
    (clusters : List (FbxCluster M)) (node : FbxNode M) :
    (∀ (pre post : List (FbxCluster M)) (c : FbxCluster M),
      (∀ c₂ ∈ pre, (c₂.link == node.id) = false) → (c.link == node.id) = true →
      ResolveBindPose ⟨root, poses⟩ (pre ++ c :: post) node = c.transformLink)
    ∧ ((∀ c₂ ∈ clusters, (c₂.link == node.id) = false) →
      ∀ (prePoses postPoses : List (Option (FbxPose M))) (p : FbxPose M) (m : M),
      (∀ q ∈ prePoses, poseHit q node.id = false) →
      p.isBindPose = true → p.find node.id = some m →
      ResolveBindPose ⟨root, prePoses ++ some p :: postPoses⟩ clusters node = m)
    ∧ ((∀ c₂ ∈ clusters, (c₂.link == node.id) = false) →
      (∀ q ∈ poses, poseHit q node.id = false) →
      ResolveBindPose ⟨root, poses⟩ clusters node = node.world) := by
  refine ⟨?_, ?_, ?_⟩
  · intro pre post c hpre hc
    rw [ResolveBindPose, find?_first_match (fun c => c.link == node.id) pre c hpre hc post]
  · intro hnone prePoses postPoses p m hpre hbind hfind
    have h1 : List.find? (fun c => c.link == node.id) clusters = none := by
      rw [List.find?_eq_none]
      intro c hmem
      simp [hnone c hmem]
    rw [ResolveBindPose, h1]
    simp only
    rw [findBindPoseMatrix_first node.id prePoses p postPoses hpre hbind m hfind]
  · intro hnone hposes
    have h1 : List.find? (fun c => c.link == node.id) clusters = none := by
      rw [List.find?_eq_none]
      intro c hmem
      simp [hnone c hmem]
    rw [ResolveBindPose, h1]
    simp only
    rw [findBindPoseMatrix_none node.id poses hposes]

/-- C2 (witness): the three tiers at concrete data — the first matching
cluster (transform 11) wins over a later cluster (22) and over a bind pose
(33); with no matching cluster the first bind-pose snapshot wins (skipping a
non-bind-pose snapshot and a null pose); with neither the evaluated world
transform (5) is used. -/
theorem claim_C2_witness :
    ResolveBindPose ⟨sampleRoot, [some samplePose]⟩
        ([sampleClusterOther] ++ sampleCluster1 :: [sampleCluster2]) sampleNodeA = 11
      ∧ ResolveBindPose
          ⟨sampleRoot, [some samplePoseNotBind, none] ++ some samplePose :: []⟩
          [sampleClusterOther] sampleNodeA = 33
      ∧ ResolveBindPose ⟨sampleRoot, [some samplePoseNotBind]⟩
          [sampleClusterOther] sampleNodeA = sampleNodeA.world :=
  ⟨(claim_C2 sampleRoot [some samplePose] [] sampleNodeA).1
      [sampleClusterOther] [sampleCluster2] sampleCluster1 (by decide) (by decide),
   (claim_C2 sampleRoot [] [sampleClusterOther] sampleNodeA).2.1 (by decide)
      [some samplePoseNotBind, none] [] samplePose 33 (by decide) rfl rfl,
   (claim_C2 sampleRoot [some samplePoseNotBind] [sampleClusterOther] sampleNodeA).2.2
      (by decide) (by decide)⟩

/-- C8: the classifier accepts exactly when the "any" flag is set, or the
category is the skeletal joint, marker, camera (plain or stereo) or light
category with the corresponding flag set, or one of the ten geometry-like
categories with the single geometry flag set; every remaining category is
rejected unconditionally. -/
theorem claim_C8 (types : NodeType) (t : EType) :
    IsTypeSelected types t = true
      ↔ (types.any = true
         ∨ (t = EType.eSkeleton ∧ types.skeleton = true)
         ∨ (t = EType.eMarker ∧ types.marker = true)
         ∨ ((t = EType.eCamera ∨ t = EType.eCameraStereo) ∧ types.camera = true)
         ∨ (t = EType.eLight ∧ types.light = true)
         ∨ ((t = EType.eMesh ∨ t = EType.eNurbs ∨ t = EType.ePatch
              ∨ t = EType.eNurbsCurve ∨ t = EType.eTrimNurbsSurface
              ∨ t = EType.eBoundary ∨ t = EType.eNurbsSurface
              ∨ t = EType.eShape ∨ t = EType.eSubDiv ∨ t = EType.eLine)
             ∧ types.geometry = true)) := by
  cases t <;> cases hany : types.any <;> simp [IsTypeSelected, hany]

/-- C9: cluster collection visits every node of the scene exactly once,
unfiltered by the selection configuration (which it does not even consult),
flattening every non-null cluster of every skin deformer of every mesh-bearing
node in depth-first pre-order into one collection; and ExtractSkeleton runs the
hierarchy walk only on that complete collection. -/
theorem claim_C9 {M T : Type} (env : FbxEnv M T) (scene : FbxScene M) (types : NodeType)
    (sk : RawSkeleton T) :
    (∀ (node : FbxNode M) (acc : List (FbxCluster M)),
      CollectClusters node acc = acc ++ (preorder node).flatMap nodeClusters)
    ∧ ExtractSkeleton env scene types sk
        = (match RecurseNode env scene ((preorder scene.root).flatMap nodeClusters) types
              scene.root env.identity sk.roots with
           | (.kNoSkeleton, roots) => (false, ⟨roots⟩, ExtractStatus.nothingFound)
           | (.kError n, roots) => (false, ⟨roots⟩, ExtractStatus.conversionFailure n)
           | (.kSkeletonFound, roots) => (true, ⟨roots⟩, ExtractStatus.success)) := by
  refine ⟨fun node acc => collectClusters_eq node acc, ?_⟩
  have hc : CollectClusters scene.root [] = (preorder scene.root).flatMap nodeClusters := by
    rw [collectClusters_eq scene.root []]
    simp
  show (match RecurseNode env scene (CollectClusters scene.root []) types
          scene.root env.identity sk.roots with
        | (.kNoSkeleton, roots) => (false, RawSkeleton.mk roots, ExtractStatus.nothingFound)
        | (.kError n, roots) => (false, RawSkeleton.mk roots, ExtractStatus.conversionFailure n)
        | (.kSkeletonFound, roots) => (true, RawSkeleton.mk roots, ExtractStatus.success))
      = _
  rw [hc]

end OzzFbx

namespace OzzTrack

/-- The clamped time is nonnegative. -/
theorem clamp01_nonneg (t : ℚ) : 0 ≤ clamp01 t := le_max_left 0 (min t 1)

/-- The clamped time is at most one. -/
theorem clamp01_le_one (t : ℚ) : clamp01 t ≤ 1 := by
  rw [clamp01]
  rcases le_total t 1 with h | h
  · rw [min_eq_left h]
    exact max_le (by norm_num) h
  · rw [min_eq_right h]
    simp

/-- Clamping is idempotent. -/
theorem clamp01_idem (t : ℚ) : clamp01 (clamp01 t) = clamp01 t := by
  rw [clamp01, min_eq_left (clamp01_le_one t), max_eq_right (clamp01_nonneg t)]

/-- std::upper_bound never runs past the end of the range. -/
theorem upperBound_le_length (l : List ℚ) (x : ℚ) : upperBound l x ≤ l.length := by
  induction l with
  | nil => simp [upperBound]
  | cons t rest ih =>
    rw [upperBound]
    by_cases h : x < t
    · simp [h]
    · rw [if_neg h]
      simp only [List.length_cons]
      omega

/-- An in-range read through `readAt` yields a value. -/
theorem readAt_some (l : List ℚ) (j : Int) (h0 : 0 ≤ j) (hlt : j.toNat < l.length) :
    ∃ y, readAt l j = some y := by
  refine ⟨l.get ⟨j.toNat, hlt⟩, ?_⟩
  rw [readAt, if_pos h0]
  simp [List.getElem?_eq_getElem hlt]

/-- C10 (counterexample): the claim admits any non-empty well-formed track,
but on a single-key track ([0] with one value) Run reaches `ptk1[-1]` with
`ptk1` pointing at the first key and reads out of bounds (modelled as none)
instead of returning true — "non-empty" is not enough. -/
theorem claim_C10_counterexample :
    WellFormedTimes [0]
      ∧ ([(0 : ℚ)].length = [(5 : ℚ)].length)
      ∧ FloatTrackSamplingJob.Run ⟨0, some ⟨[0], [5]⟩, true⟩ = none :=
  ⟨⟨by simp, List.chain'_singleton 0, rfl⟩, rfl, rfl⟩

/-- C10 (amended): Run returns false (writing nothing through the result
pointer) exactly when the track pointer or result pointer is NULL; the outcome
depends on the time input only through its clamp to [0, 1]; and for a
well-formed track with at least TWO keys (strictly increasing times starting
at 0, values as numerous as times, as the track builder guarantees), Run with
non-NULL pointers always returns true and writes a sampled value. -/
theorem claim_C10 (job : FloatTrackSamplingJob) :
    ((job.track = none ∨ job.hasResult = false) → job.Run = some (false, none))
    ∧ job.Run = FloatTrackSamplingJob.Run ⟨clamp01 job.time, job.track, job.hasResult⟩
    ∧ (∀ track : FloatTrack, job.track = some track → job.hasResult = true →
        track.times.length = track.values.length → 2 ≤ track.times.length →
        List.Chain' (· < ·) track.times → track.times.head? = some 0 →
        ∃ v, job.Run = some (true, some v)) := by
  refine ⟨?_, ?_, ?_⟩
  · intro h
    have hval : job.Validate = false := by
      rcases h with h | h <;> simp [FloatTrackSamplingJob.Validate, h]
    simp [FloatTrackSamplingJob.Run, hval]
  · cases htrack : job.track with
    | none =>
      simp [FloatTrackSamplingJob.Run, FloatTrackSamplingJob.Validate, htrack]
    | some track =>
      cases hres : job.hasResult with
      | false =>
        simp [FloatTrackSamplingJob.Run, FloatTrackSamplingJob.Validate, htrack, hres]
      | true =>
        simp [FloatTrackSamplingJob.Run, FloatTrackSamplingJob.Validate, htrack, hres,
          clamp01_idem]
  · intro track htrack hres hlen hlen2 hchain hhead
    have hval : job.Validate = true := by
      simp [FloatTrackSamplingJob.Validate, htrack, hres]
    have hc0 : 0 ≤ clamp01 job.time := clamp01_nonneg _
    have hi1 : 1 ≤ upperBound track.times (clamp01 job.time) := by
      cases hts : track.times with
      | nil => rw [hts] at hlen2; simp at hlen2
      | cons t0 ts =>
        have ht0 : t0 = 0 := by rw [hts] at hhead; simpa using hhead
        rw [upperBound, if_neg (by rw [ht0]; exact not_lt.mpr hc0)]
        omega
    have hile : upperBound track.times (clamp01 job.time) ≤ track.times.length :=
      upperBound_le_length _ _
    set i := upperBound track.times (clamp01 job.time) with hi
    set k1 : Int := if i = track.times.length then (i : Int) - 1 else (i : Int) with hk1
    have hk1ge : 1 ≤ k1 := by
      rw [hk1]; split_ifs with h <;> omega
    have hk1lt : k1 < (track.times.length : Int) := by
      rw [hk1]; split_ifs with h <;> omega
    obtain ⟨tk0, h1⟩ := readAt_some track.times (k1 - 1) (by omega) (by omega)
    obtain ⟨tk1v, h2⟩ := readAt_some track.times k1 (by omega) (by omega)
    obtain ⟨vk0, h3⟩ := readAt_some track.values (k1 - 1) (by omega) (by omega)
    obtain ⟨vk1, h4⟩ := readAt_some track.values k1 (by omega) (by omega)
    refine ⟨(vk1 - vk0) * ((clamp01 job.time - tk0) / (tk1v - tk0)) + vk0, ?_⟩
    simp only [FloatTrackSamplingJob.Run, hval, htrack]
    rw [if_neg (by simp)]
    simp only [← hi, ← hk1, h1, h2, h3, h4]

/-- C10 (witness): on a two-key track, claim_C10 applies — a NULL track makes
Run return false writing nothing, an out-of-range time is clamped, and valid
pointers yield a successful sample. -/
theorem claim_C10_witness :
    (FloatTrackSamplingJob.Run ⟨0, none, true⟩ = some (false, none))
      ∧ (FloatTrackSamplingJob.Run ⟨3, some ⟨[0, 1], [5, 7]⟩, true⟩
          = FloatTrackSamplingJob.Run ⟨clamp01 3, some ⟨[0, 1], [5, 7]⟩, true⟩)
      ∧ (∃ v, FloatTrackSamplingJob.Run ⟨3, some ⟨[0, 1], [5, 7]⟩, true⟩
          = some (true, some v)) :=
  ⟨(claim_C10 ⟨0, none, true⟩).1 (Or.inl rfl),
   (claim_C10 ⟨3, some ⟨[0, 1], [5, 7]⟩, true⟩).2.1,
   (claim_C10 ⟨3, some ⟨[0, 1], [5, 7]⟩, true⟩).2.2 ⟨[0, 1], [5, 7]⟩ rfl rfl rfl
     (by simp) (by simp [List.chain'_cons]) rfl⟩

end OzzTrack
